import Mathlib

/-
Shallow embedding of the qmk-oled-api core (src/utils.rs, src/data.rs,
src/screen.rs).  Machine integers (u8, usize) are modelled as Nat; the byte
operations used (shift, and, or, xor with 255, on values below 256) never
overflow, so no modular reduction is needed.  Rust panics (out-of-bounds
indexing, u8 conversion overflow) are outside the contract exercised by the
theorems: where a theorem would otherwise touch such a case it carries an
explicit hypothesis keeping it inside the panic-free domain.
-/

set_option maxRecDepth 4000

namespace QmkOled

/-- utils.rs get_bit_at_index: mask = 0b10000000 >> bit_index; mask & byte != 0. -/
def get_bit_at_index (byte bitIndex : Nat) : Bool :=
  ((128 >>> bitIndex) &&& byte) != 0

/-- utils.rs set_bit_at_index: mask = 0b10000000 >> bit_index;
    enabled then mask | byte else (mask ^ 0b11111111) & byte. -/
def set_bit_at_index (byte bitIndex : Nat) (enabled : Bool) : Nat :=
  let mask := 128 >>> bitIndex
  if enabled then mask ||| byte else (mask ^^^ 255) &&& byte

/-- data.rs: const PAYLOAD_SIZE: usize = 32. -/
def PAYLOAD_SIZE : Nat := 32

/-- data.rs DataPacket { index: u8, payload: [u8; PAYLOAD_SIZE - 2] }.
    The index is a Nat standing for the u8 value; payload a list of byte
    values (each below 256) of length PAYLOAD_SIZE - 2 = 30. Derived
    decidable equality is the structural PartialEq the Rust code derives. -/
structure DataPacket where
  index : Nat
  payload : List Nat
deriving DecidableEq

/-- data.rs DataPacket::to_bytes: vec![1, self.index] extended with payload. -/
def DataPacket.to_bytes (p : DataPacket) : List Nat :=
  1 :: p.index :: p.payload

/-- screen.rs to_packets, chunking step: itertools chunks(PAYLOAD_SIZE - 2),
    i.e. successive groups of 30 bytes, the last possibly shorter.  The fuel
    argument (instantiated with the list length) only makes the recursion
    structural; it never cuts a run short. -/
def chunksGo : Nat → List Nat → List (List Nat)
  | _, [] => []
  | 0, _ :: _ => []
  | fuel + 1, a :: rest => (a :: rest.take 29) :: chunksGo fuel (rest.drop 29)

/-- Chunks of 30 bytes (PAYLOAD_SIZE - 2) of the flattened buffer. -/
def chunksOf30 (l : List Nat) : List (List Nat) :=
  chunksGo l.length l

/-- screen.rs to_packets, padding step: output_array starts as [0; 30] and the
    first 30 bytes of the chunk are copied over it, so the result is the chunk
    (at most 30 bytes of it) zero-padded to exactly 30 bytes. -/
def padChunk (chunk : List Nat) : List Nat :=
  chunk.take 30 ++ List.replicate (30 - chunk.length) 0

/-- screen.rs to_packets, enumerate step: 0-based indices in emission order,
    packet i is DataPacket::new(i, chunk_i).  The Rust index is
    usize→u8 via try_into().unwrap(), faithful for at most 256 packets
    (buffers of at most 7680 bytes); theorems about longer buffers carry that
    bound as a hypothesis. -/
def enumChunks : Nat → List (List Nat) → List DataPacket
  | _, [] => []
  | i, c :: rest => ⟨i, c⟩ :: enumChunks (i + 1) rest

/-- screen.rs OledScreen::to_packets: chunk the byte buffer into groups of
    PAYLOAD_SIZE - 2 = 30, zero-pad each chunk to 30 bytes, enumerate. -/
def toPackets (data : List Nat) : List DataPacket :=
  enumChunks 0 ((chunksOf30 data).map padChunk)

/-- screen.rs OledScreen state: width, height, data buffer, _prev_packets.
    The HID device handle is modelled separately (send is parametrised by the
    device's behaviour). -/
structure OledScreen where
  width : Nat
  height : Nat
  data : List Nat
  prevPackets : Option (List DataPacket)
deriving DecidableEq

/-- screen.rs OledScreen::from_device (also from_path / from_id on success):
    data = vec![0; (width * height) / 8], _prev_packets = None. -/
def OledScreen.fromDevice (width height : Nat) : OledScreen :=
  ⟨width, height, List.replicate (width * height / 8) 0, none⟩

/-- screen.rs OledScreen::set_pixel: silently return when x >= width or
    y >= height; otherwise write bit 7 - x % 8 of byte (x / 8) * height + y.
    In-range coordinate pairs on widths divisible by 8 keep the byte index
    inside the buffer, matching the panic-free Rust executions. -/
def OledScreen.set_pixel (s : OledScreen) (x y : Nat) (enabled : Bool) : OledScreen :=
  if x ≥ s.width ∨ y ≥ s.height then s
  else
    let targetByte := (x / 8) * s.height + y
    let targetBit := 7 - x % 8
    let newByte := set_bit_at_index (s.data.getD targetByte 0) targetBit enabled
    { s with data := s.data.set targetByte newByte }

/-- screen.rs OledScreen::get_pixel: read bit 7 - x % 8 of byte
    (x + y * width) / 8 (note: a different byte-index formula than
    set_pixel's). -/
def OledScreen.get_pixel (s : OledScreen) (x y : Nat) : Bool :=
  let byteIndex := (x + y * s.width) / 8
  let bitIndex := 7 - x % 8
  get_bit_at_index (s.data.getD byteIndex 0) bitIndex

/-- screen.rs OledScreen::clear: data = vec![0; width * height / 8]. -/
def OledScreen.clear (s : OledScreen) : OledScreen :=
  { s with data := List.replicate (s.width * s.height / 8) 0 }

/-- screen.rs OledScreen::fill_all: data = vec![1; width * height / 8]
    (byte value 1, as written in the source). -/
def OledScreen.fill_all (s : OledScreen) : OledScreen :=
  { s with data := List.replicate (s.width * s.height / 8) 1 }

/-- screen.rs send, filtering step (lines 213-218): current packets, minus —
    when a baseline exists — every packet contained in the baseline
    (Vec::contains, i.e. structural-equality membership anywhere in the
    baseline). -/
def pendingPackets (s : OledScreen) : List DataPacket :=
  let packets := toPackets s.data
  match s.prevPackets with
  | some prev => packets.filter (fun p => !(decide (p ∈ prev)))
  | none => packets

/-- Result of a send call: the updated screen, the byte strings the device
    accepted (the mock device records each successful write), whether send
    returned Ok, and the device's total write counter afterwards. -/
structure SendResult where
  screen : OledScreen
  written : List (List Nat)
  ok : Bool
  devWrites : Nat
deriving DecidableEq

/-- screen.rs send, transmission loop (lines 222-224): write each packet's
    wire bytes in order; the first failed write aborts with the error, later
    packets are not attempted.  The device is modelled by which write
    ordinals succeed (dev n = whether the n-th write call overall succeeds). -/
def sendLoop (dev : Nat → Bool) : List DataPacket → Nat → List (List Nat) × Bool × Nat
  | [], n => ([], true, n)
  | p :: rest, n =>
    if dev n then
      let r := sendLoop dev rest (n + 1)
      (p.to_bytes :: r.1, r.2.1, r.2.2)
    else
      ([], false, n + 1)

/-- screen.rs OledScreen::send: filter against the baseline, unconditionally
    replace _prev_packets with the full current sequence (line 220, before the
    write loop), then transmit the surviving packets in order aborting on the
    first failure. -/
def OledScreen.send (s : OledScreen) (dev : Nat → Bool) (n : Nat) : SendResult :=
  let packets := pendingPackets s
  let s2 := { s with prevPackets := some (toPackets s.data) }
  let r := sendLoop dev packets n
  ⟨s2, r.1, r.2.1, r.2.2⟩

/-- Device that accepts every write (the MockHidDevice of the tests). -/
def devTrue : Nat → Bool := fun _ => true

/-- Device whose j-th write call fails and all others succeed. -/
def devFailAt (j : Nat) : Nat → Bool := fun m => m != j

/-- Bounds pair passed to the resize call of screen.rs draw_image's Contain
    arm (line 136): image.resize(32, 128, FilterType::Lanczos3) — both bounds
    are hardcoded constants, independent of the screen value. -/
def containResizeBounds ( _s : OledScreen) : Nat × Nat := (32, 128)

/-- screen.rs draw_image blit loop (lines 158-165), applied to the dithered
    grayscale pixel bytes: row = index / width, col = index % width,
    enabled = pixel == 255, set_pixel(x + col, y + image_height - row).
    The decode / resize / grayscale / dither preamble is performed by the
    external image collaborator; pixels is its output raster. -/
def blitDithered (s : OledScreen) (pixels : List Nat) (w h x y : Nat) : OledScreen :=
  (pixels.enum).foldl
    (fun acc ip =>
      let row := ip.1 / w
      let col := ip.1 % w
      let enabled := ip.2 == 255
      acc.set_pixel (x + col) (y + h - row) enabled)
    s

/-- Rounding of byte/255 to the nearest integer: the Rust expression
    (byte as f32 / 255.0).round() as i32.  For byte values 0..=255 the f32
    computation agrees exactly with round-half-away-from-zero of the rational
    byte/255 (no tie can occur since 255 is odd and the quotients are more
    than 2^-9 away from 1/2, far beyond f32 rounding error), and
    round(q) = floor((2*byte + 255) / 510) for nonnegative q. -/
def roundGray (b : Nat) : Nat := (2 * b + 255) / 510

/-- screen.rs draw_letter blit loop (lines 201-209), applied to the glyph
    bitmap bytes produced by the external font rasterizer: col = x + index %
    width, row = y + height - index / width, enabled iff the rounded
    byte/255 equals 1. -/
def drawLetterBlit (s : OledScreen) (bitmap : List Nat) (w h x y : Nat) : OledScreen :=
  (bitmap.enum).foldl
    (fun acc ib =>
      let col := x + ib.1 % w
      let row := y + h - ib.1 / w
      let enabled := roundGray ib.2 == 1
      acc.set_pixel col row enabled)
    s

/-- Sequence of set_pixel calls, each op being (target column, target row,
    value), applied left to right. -/
def applySets (s : OledScreen) (ops : List (Nat × Nat × Bool)) : OledScreen :=
  ops.foldl (fun acc op => acc.set_pixel op.1 op.2.1 op.2.2) s

/-- Claim-side formulation, following the wording of the spec: for source
    pixel index i of a w×h bitmap drawn at (x, y), the target column is
    x + i % w and the target row is y + h - i / w; an image pixel is on iff
    its dithered value equals 255. -/
def specImageBlitOps (pixels : List Nat) (w h x y : Nat) : List (Nat × Nat × Bool) :=
  (pixels.enum).map (fun ip => (x + ip.1 % w, y + h - ip.1 / w, decide (ip.2 = 255)))

/-- Claim-side formulation, following the wording of the spec: glyphs use the
    same vertical-mirror formula, and a glyph pixel is on iff rounding its
    grayscale byte divided by 255 to the nearest integer gives 1. -/
def specGlyphBlitOps (bitmap : List Nat) (w h x y : Nat) : List (Nat × Nat × Bool) :=
  (bitmap.enum).map (fun ib => (x + ib.1 % w, y + h - ib.1 / w, decide (roundGray ib.2 = 1)))

/- ------------------------------------------------------------------ -/
/- Helper lemmas -/
/- ------------------------------------------------------------------ -/

lemma nat_beq_eq_decide (a b : Nat) : (a == b) = decide (a = b) := by
  by_cases hd : a = b
  · subst hd; simp
  · simp [hd]

lemma padChunk_length (c : List Nat) : (padChunk c).length = 30 := by
  simp only [padChunk, List.length_append, List.length_take, List.length_replicate]
  omega

lemma padChunk_of_le (c : List Nat) (h : c.length ≤ 30) :
    padChunk c = c ++ List.replicate (30 - c.length) 0 := by
  simp [padChunk, List.take_of_length_le h]

lemma chunksGo_length :
    ∀ (fuel : Nat) (l : List Nat), l.length ≤ fuel →
      (chunksGo fuel l).length = (l.length + 29) / 30 := by
  intro fuel
  induction fuel with
  | zero =>
    intro l h
    match l with
    | [] => simp [chunksGo]
    | a :: rest => simp at h
  | succ fuel ih =>
    intro l h
    match l with
    | [] => simp [chunksGo]
    | a :: rest =>
      have hh : (rest.drop 29).length ≤ fuel := by
        simp only [List.length_drop]
        simp only [List.length_cons] at h
        omega
      simp only [chunksGo, List.length_cons, ih (rest.drop 29) hh, List.length_drop]
      simp only [List.length_cons] at h
      omega

lemma chunksGo_get :
    ∀ (fuel : Nat) (l : List Nat), l.length ≤ fuel →
      ∀ (i : Nat) (h : i < (chunksGo fuel l).length),
        (chunksGo fuel l).get ⟨i, h⟩ = (l.drop (30 * i)).take 30 := by
  intro fuel
  induction fuel with
  | zero =>
    intro l hl i h
    match l with
    | [] => simp [chunksGo] at h
    | a :: rest => simp at hl
  | succ fuel ih =>
    intro l hl i h
    match l with
    | [] => simp [chunksGo] at h
    | a :: rest =>
      match i with
      | 0 =>
        show a :: rest.take 29 = ((a :: rest).drop 0).take 30
        simp
      | i + 1 =>
        have hh : (rest.drop 29).length ≤ fuel := by
          simp only [List.length_drop]
          simp only [List.length_cons] at hl
          omega
        have h2 : i < (chunksGo fuel (rest.drop 29)).length := by
          have := h
          simp only [chunksGo, List.length_cons] at this
          omega
        show (chunksGo fuel (rest.drop 29)).get ⟨i, h2⟩ = _
        rw [ih (rest.drop 29) hh i h2, List.drop_drop]
        have h30 : 30 * (i + 1) = (30 * i + 29) + 1 := by ring
        rw [h30, List.drop_succ_cons]
        have h29 : 29 + 30 * i = 30 * i + 29 := by omega
        rw [h29]

lemma chunksOf30_length (l : List Nat) :
    (chunksOf30 l).length = (l.length + 29) / 30 :=
  chunksGo_length l.length l (le_refl _)

lemma chunksOf30_get (l : List Nat) (i : Nat) (h : i < (chunksOf30 l).length) :
    (chunksOf30 l).get ⟨i, h⟩ = (l.drop (30 * i)).take 30 :=
  chunksGo_get l.length l (le_refl _) i h

lemma chunksOf30_get_length_le (l : List Nat) (i : Nat)
    (h : i < (chunksOf30 l).length) :
    ((chunksOf30 l).get ⟨i, h⟩).length ≤ 30 := by
  rw [chunksOf30_get]
  simp

lemma enumChunks_length (j : Nat) (cs : List (List Nat)) :
    (enumChunks j cs).length = cs.length := by
  induction cs generalizing j with
  | nil => rfl
  | cons c rest ih => simp [enumChunks, ih]

lemma enumChunks_get :
    ∀ (cs : List (List Nat)) (j i : Nat) (h : i < (enumChunks j cs).length),
      (enumChunks j cs).get ⟨i, h⟩
        = ⟨j + i, cs.get ⟨i, enumChunks_length j cs ▸ h⟩⟩ := by
  intro cs
  induction cs with
  | nil => intro j i h; simp [enumChunks] at h
  | cons c rest ih =>
    intro j i h
    match i with
    | 0 => rfl
    | i + 1 =>
      have h2 : i < (enumChunks (j + 1) rest).length := by
        have := h
        simp only [enumChunks, List.length_cons] at this
        omega
      show (enumChunks (j + 1) rest).get ⟨i, h2⟩ = _
      rw [ih (j + 1) i h2]
      have hj : j + 1 + i = j + (i + 1) := by omega
      have hget : rest.get ⟨i, enumChunks_length (j + 1) rest ▸ h2⟩
          = (c :: rest).get ⟨i + 1, enumChunks_length j (c :: rest) ▸ h⟩ := by
        apply List.get_cons_succ.symm
      rw [DataPacket.mk.injEq]
      exact ⟨hj, hget⟩

lemma toPackets_length (data : List Nat) :
    (toPackets data).length = (data.length + 29) / 30 := by
  unfold toPackets
  rw [enumChunks_length, List.length_map, chunksOf30_length]

lemma toPackets_get (data : List Nat) (i : Nat) (h : i < (toPackets data).length) :
    (toPackets data).get ⟨i, h⟩ = ⟨i, padChunk ((data.drop (30 * i)).take 30)⟩ := by
  unfold toPackets at h ⊢
  rw [enumChunks_get]
  have hm : i < ((chunksOf30 data).map padChunk).length :=
    enumChunks_length 0 ((chunksOf30 data).map padChunk) ▸ h
  rw [DataPacket.mk.injEq]
  constructor
  · omega
  · rw [List.get_map]
    congr 1
    apply chunksOf30_get

lemma sendLoop_devTrue (packets : List DataPacket) :
    ∀ n, sendLoop devTrue packets n
      = (packets.map DataPacket.to_bytes, true, n + packets.length) := by
  induction packets with
  | nil => intro n; simp [sendLoop]
  | cons p rest ih =>
    intro n
    simp only [sendLoop, devTrue, if_true, ih (n + 1), List.map_cons,
      List.length_cons, Prod.mk.injEq]
    refine ⟨?_, ?_, ?_⟩ <;> first
      | rfl
      | trivial
      | omega

lemma sendLoop_failAt (packets : List DataPacket) :
    ∀ (n k : Nat), k < packets.length →
      sendLoop (devFailAt (n + k)) packets n
        = ((packets.take k).map DataPacket.to_bytes, false, n + k + 1) := by
  induction packets with
  | nil => intro n k h; simp at h
  | cons p rest ih =>
    intro n k h
    match k with
    | 0 =>
      simp [sendLoop, devFailAt]
    | k + 1 =>
      have hk : k < rest.length := by
        simp only [List.length_cons] at h
        omega
      have hr : n + (k + 1) = n + 1 + k := by omega
      have hdev : devFailAt (n + 1 + k) n = true := by
        simp only [devFailAt, bne_iff_ne, ne_eq]
        omega
      rw [hr]
      simp [sendLoop, hdev, ih (n + 1) k hk]

/- ------------------------------------------------------------------ -/
/- Claim theorems -/
/- ------------------------------------------------------------------ -/

/-- C1: the claim fails on the code.  On a 32×128 canvas, set_pixel(0,1,true)
    writes byte index (x/8)*height + y = 1, while get_pixel(0,1) reads byte
    index (x + y*width)/8 = 4: the two operations use different byte-index
    formulas, and the immediate read-back of the just-set pixel returns
    false instead of true. -/
theorem C1_set_then_get_addressing_bug :
    ((OledScreen.fromDevice 32 128).set_pixel 0 1 true).get_pixel 0 1 = false
    ∧ ((OledScreen.fromDevice 32 128).set_pixel 0 1 true).data.getD 1 0 = 1
    ∧ ((OledScreen.fromDevice 32 128).set_pixel 0 1 true).data.getD 4 0 = 0 := by
  refine ⟨by decide, by decide, by decide⟩

/-- C2: send transmits exactly the current packets not structurally equal to
    any member of the baseline (a membership filter), every packet when no
    baseline exists; concretely, on a 32×128 screen, fill_all then send
    performs 18 device writes and a second fill_all + send performs 0. -/
theorem C2_send_membership_diff :
    (∀ (s : OledScreen) (n : Nat), s.prevPackets = none →
        (s.send devTrue n).written = (toPackets s.data).map DataPacket.to_bytes)
    ∧ (∀ (s : OledScreen) (prev : List DataPacket) (n : Nat),
        s.prevPackets = some prev →
          (s.send devTrue n).written
            = ((toPackets s.data).filter (fun p => decide (¬ p ∈ prev))).map
                DataPacket.to_bytes)
    ∧ ((((OledScreen.fromDevice 32 128).fill_all).send devTrue 0).written.length = 18
        ∧ (((((OledScreen.fromDevice 32 128).fill_all).send devTrue 0).screen.fill_all).send
              devTrue
              ((((OledScreen.fromDevice 32 128).fill_all).send devTrue 0).devWrites)).written.length
            = 0) := by
  refine ⟨?_, ?_, by decide, by decide⟩
  · intro s n hnone
    simp [OledScreen.send, pendingPackets, hnone, sendLoop_devTrue]
  · intro s prev n hsome
    simp [OledScreen.send, pendingPackets, hsome, sendLoop_devTrue, decide_not]

/-- C2 witness: the two filter laws applied to concrete screens. -/
theorem C2_send_membership_diff_witness :
    ((OledScreen.fromDevice 32 128).send devTrue 0).written
        = (toPackets (OledScreen.fromDevice 32 128).data).map DataPacket.to_bytes
    ∧ (((OledScreen.fromDevice 32 128).send devTrue 3).screen.send devTrue 5).written
        = ((toPackets ((OledScreen.fromDevice 32 128).send devTrue 3).screen.data).filter
            (fun p => decide (¬ p ∈ toPackets (OledScreen.fromDevice 32 128).data))).map
            DataPacket.to_bytes :=
  ⟨C2_send_membership_diff.1 (OledScreen.fromDevice 32 128) 0 rfl,
   C2_send_membership_diff.2.1 ((OledScreen.fromDevice 32 128).send devTrue 3).screen
     (toPackets (OledScreen.fromDevice 32 128).data) 5 rfl⟩

/-- C3: to_packets is a pure function of the byte buffer that chunks it into
    30-byte groups, zero-pads the final chunk, assigns 0-based sequence
    indices in emission order, and yields ceil(len/30) packets (for buffers
    whose packet indices fit the u8 conversion); on a fresh 32×128 canvas it
    yields 18 packets with indices 0..17 and packet 17 is zero beyond its two
    data bytes. -/
theorem C3_toPackets_chunking :
    (∀ data : List Nat, data.length ≤ 7680 →
        (toPackets data).length = (data.length + 29) / 30)
    ∧ (∀ (data : List Nat) (i : Nat) (h : i < (toPackets data).length),
        ((toPackets data).get ⟨i, h⟩).index = i
        ∧ ((toPackets data).get ⟨i, h⟩).payload
            = (data.drop (30 * i)).take 30
              ++ List.replicate (30 - ((data.drop (30 * i)).take 30).length) 0)
    ∧ ((toPackets (OledScreen.fromDevice 32 128).data).length = 18
       ∧ (toPackets (OledScreen.fromDevice 32 128).data).map DataPacket.index
           = List.range 18
       ∧ ((toPackets (OledScreen.fromDevice 32 128).data).getD 17 ⟨0, []⟩).payload.drop 2
           = List.replicate 28 0) := by
  refine ⟨?_, ?_, by decide, by decide, by decide⟩
  · intro data hlen
    exact toPackets_length data
  · intro data i h
    rw [toPackets_get]
    refine ⟨rfl, ?_⟩
    apply padChunk_of_le
    simp

/-- C3 witness: the general chunking facts applied to a concrete 35-byte
    buffer (two packets, the second zero-padded). -/
theorem C3_toPackets_chunking_witness :
    (toPackets (List.replicate 35 7)).length = ((List.replicate 35 (7 : Nat)).length + 29) / 30
    ∧ (((toPackets (List.replicate 35 7)).get
          ⟨1, by decide⟩).index = 1
        ∧ ((toPackets (List.replicate 35 7)).get
            ⟨1, by decide⟩).payload
          = ((List.replicate 35 7).drop (30 * 1)).take 30
            ++ List.replicate (30 - (((List.replicate 35 7).drop (30 * 1)).take 30).length) 0) :=
  ⟨C3_toPackets_chunking.1 (List.replicate 35 7) (by decide),
   C3_toPackets_chunking.2.1 (List.replicate 35 7) 1 (by decide)⟩

/-- C4: with a device whose k-th write of the call fails, send reports the
    failure, has transmitted exactly the packets before the failing one, and
    has nonetheless already replaced the baseline with the full current
    packet sequence. -/
theorem C4_send_failure_keeps_full_baseline :
    ∀ (s : OledScreen) (n k : Nat), k < (pendingPackets s).length →
      ((s.send (devFailAt (n + k)) n).ok = false
       ∧ (s.send (devFailAt (n + k)) n).written
           = ((pendingPackets s).take k).map DataPacket.to_bytes
       ∧ (s.send (devFailAt (n + k)) n).screen.prevPackets
           = some (toPackets s.data)) := by
  intro s n k hk
  have hloop := sendLoop_failAt (pendingPackets s) n k hk
  refine ⟨?_, ?_, rfl⟩
  · show (sendLoop (devFailAt (n + k)) (pendingPackets s) n).2.1 = false
    rw [hloop]
  · show (sendLoop (devFailAt (n + k)) (pendingPackets s) n).1 = _
    rw [hloop]

/-- C4 witness: a 32×128 screen after fill_all, device failing at the 6th
    write of the call. -/
theorem C4_send_failure_keeps_full_baseline_witness :
    ((((OledScreen.fromDevice 32 128).fill_all).send (devFailAt (0 + 5)) 0).ok = false
     ∧ (((OledScreen.fromDevice 32 128).fill_all).send (devFailAt (0 + 5)) 0).written
         = ((pendingPackets ((OledScreen.fromDevice 32 128).fill_all)).take 5).map
             DataPacket.to_bytes
     ∧ (((OledScreen.fromDevice 32 128).fill_all).send (devFailAt (0 + 5)) 0).screen.prevPackets
         = some (toPackets ((OledScreen.fromDevice 32 128).fill_all).data)) :=
  C4_send_failure_keeps_full_baseline ((OledScreen.fromDevice 32 128).fill_all) 0 5 (by decide)

/-- C5: the claim fails on the code.  clear() does zero every byte, but
    fill_all() sets every byte to the value 1 (vec![1; ...]), not 0xFF: the
    most significant bit of each byte stays 0, and e.g. the pixel read at
    (1,0) after fill_all is still off. -/
theorem C5_fill_all_writes_byte_one :
    ((OledScreen.fromDevice 32 128).clear).data = List.replicate 512 0
    ∧ ((OledScreen.fromDevice 32 128).fill_all).data = List.replicate 512 1
    ∧ get_bit_at_index 1 0 = false
    ∧ ((OledScreen.fromDevice 32 128).fill_all).get_pixel 1 0 = false := by
  refine ⟨by decide, by decide, by decide, by decide⟩

/-- C6: the wire form of a packet with its 30-byte payload is exactly
    PAYLOAD_SIZE = 32 bytes — report id 1, then the sequence index, then the
    payload — and every packet to_packets produces carries a full 30-byte
    (zero-padded) payload. -/
theorem C6_wire_format :
    (∀ p : DataPacket, p.payload.length = 30 →
        (p.to_bytes.length = PAYLOAD_SIZE
         ∧ p.to_bytes.getD 0 0 = 1
         ∧ p.to_bytes.getD 1 0 = p.index
         ∧ p.to_bytes.drop 2 = p.payload))
    ∧ (∀ (data : List Nat) (i : Nat) (h : i < (toPackets data).length),
        ((toPackets data).get ⟨i, h⟩).payload.length = 30) := by
  constructor
  · intro p hp
    refine ⟨?_, rfl, rfl, rfl⟩
    simp [DataPacket.to_bytes, PAYLOAD_SIZE, hp]
  · intro data i h
    rw [toPackets_get]
    exact padChunk_length _

/-- C6 witness: a concrete packet and a concrete buffer. -/
theorem C6_wire_format_witness :
    ((DataPacket.mk 3 (List.replicate 30 9)).to_bytes.length = PAYLOAD_SIZE
     ∧ (DataPacket.mk 3 (List.replicate 30 9)).to_bytes.getD 0 0 = 1
     ∧ (DataPacket.mk 3 (List.replicate 30 9)).to_bytes.getD 1 0
         = (DataPacket.mk 3 (List.replicate 30 9)).index
     ∧ (DataPacket.mk 3 (List.replicate 30 9)).to_bytes.drop 2
         = (DataPacket.mk 3 (List.replicate 30 9)).payload)
    ∧ ((toPackets (List.replicate 5 1)).get ⟨0, by decide⟩).payload.length = 30 :=
  ⟨C6_wire_format.1 (DataPacket.mk 3 (List.replicate 30 9)) (by decide),
   C6_wire_format.2 (List.replicate 5 1) 0 (by decide)⟩

/-- C7: set_pixel with x >= width or y >= height is a silent no-op — it
    returns the screen unchanged (buffer byte-for-byte identical, no error
    reported anywhere). -/
theorem C7_set_pixel_out_of_range_noop :
    ∀ (s : OledScreen) (x y : Nat) (b : Bool),
      x ≥ s.width ∨ y ≥ s.height → s.set_pixel x y b = s := by
  intro s x y b h
  simp only [OledScreen.set_pixel, if_pos h]

/-- C7 witness: x = width on a 32×128 screen. -/
theorem C7_set_pixel_out_of_range_noop_witness :
    (OledScreen.fromDevice 32 128).set_pixel 32 5 true = OledScreen.fromDevice 32 128 :=
  C7_set_pixel_out_of_range_noop (OledScreen.fromDevice 32 128) 32 5 true
    (Or.inl (by decide))

/-- C8: the image blit and the glyph blit each perform exactly the set_pixel
    calls given by the vertical-mirror addressing formula — target column
    x + i % w, target row y + h - i / w — with an image pixel on iff its
    dithered value is 255 and a glyph pixel on iff round(byte/255) = 1; that
    rounding gives 1 exactly for byte values 128..255. -/
theorem C8_blit_vertical_mirror :
    (∀ (s : OledScreen) (pixels : List Nat) (w h x y : Nat),
        blitDithered s pixels w h x y = applySets s (specImageBlitOps pixels w h x y))
    ∧ (∀ (s : OledScreen) (bitmap : List Nat) (w h x y : Nat),
        drawLetterBlit s bitmap w h x y = applySets s (specGlyphBlitOps bitmap w h x y))
    ∧ (∀ b : Nat, b ≤ 255 → (roundGray b = 1 ↔ 128 ≤ b)) := by
  refine ⟨?_, ?_, ?_⟩
  · intro s pixels w h x y
    simp only [blitDithered, applySets, specImageBlitOps, List.foldl_map,
      nat_beq_eq_decide]
  · intro s bitmap w h x y
    simp only [drawLetterBlit, applySets, specGlyphBlitOps, List.foldl_map,
      nat_beq_eq_decide]
  · intro b hb
    simp only [roundGray]
    omega

/-- C8 witness: the rounding threshold at a concrete byte value. -/
theorem C8_blit_vertical_mirror_witness :
    roundGray 200 = 1 ↔ 128 ≤ 200 :=
  C8_blit_vertical_mirror.2.2 200 (by decide)

/-- C9: the claim fails on the code.  On a screen constructed with width 64
    and height 64, the Contain arm still resizes toward the hardcoded bounds
    (32, 128), not the canvas's own dimensions. -/
theorem C9_contain_bounds_counterexample :
    containResizeBounds (OledScreen.fromDevice 64 64)
      ≠ ((OledScreen.fromDevice 64 64).width, (OledScreen.fromDevice 64 64).height) := by
  decide

/-- C9 amended: under Contain, draw_image hands the resize call the fixed
    bounds (32, 128) — hardcoded constants — for every screen, so whenever
    the canvas width differs from 32 the bounds are not the canvas's
    dimensions. -/
theorem C9_contain_hardcoded_bounds :
    ∀ s : OledScreen,
      containResizeBounds s = (32, 128)
      ∧ (s.width ≠ 32 → containResizeBounds s ≠ (s.width, s.height)) := by
  intro s
  refine ⟨rfl, ?_⟩
  intro hw hcontra
  exact hw ((congrArg Prod.fst hcontra).symm)

/-- C9 witness: the amended statement at the 64×64 screen. -/
theorem C9_contain_hardcoded_bounds_witness :
    containResizeBounds (OledScreen.fromDevice 64 64) = (32, 128)
    ∧ containResizeBounds (OledScreen.fromDevice 64 64)
        ≠ ((OledScreen.fromDevice 64 64).width, (OledScreen.fromDevice 64 64).height) :=
  ⟨(C9_contain_hardcoded_bounds (OledScreen.fromDevice 64 64)).1,
   (C9_contain_hardcoded_bounds (OledScreen.fromDevice 64 64)).2 (by decide)⟩

/-- C10: send never modifies the canvas byte buffer or the dimensions — for
    every device behaviour (success or failure) the buffer is byte-for-byte
    what it was, the only state change is the stored baseline, and to_packets
    before and after coincide. -/
theorem C10_send_preserves_canvas :
    ∀ (s : OledScreen) (dev : Nat → Bool) (n : Nat),
      (s.send dev n).screen.data = s.data
      ∧ (s.send dev n).screen.width = s.width
      ∧ (s.send dev n).screen.height = s.height
      ∧ (s.send dev n).screen.prevPackets = some (toPackets s.data)
      ∧ toPackets (s.send dev n).screen.data = toPackets s.data := by
  intro s dev n
  exact ⟨rfl, rfl, rfl, rfl, rfl⟩

end QmkOled
